import Mathlib

/-!
Verification of the JWT validation core of the oidc-loki Rust client example
(`src/examples/rust/src/main.rs`, function `validate_token`).

The embedding works on `List Char` (the characters of the Rust `&str` input)
and `List Nat` (decoded bytes, each < 256).  Error values are the `String`
contents (as `List Char`) that the Rust code produces with `format!`.

External crates used by the source are modelled from their documented
behaviour:
  * `base64` crate engines `general_purpose::STANDARD` (standard alphabet,
    canonical padding required on decode, trailing bits rejected) and
    `general_purpose::URL_SAFE_NO_PAD` (URL-safe alphabet, padding
    forbidden on decode, trailing bits rejected);
  * `jsonwebtoken::decode_header` (two `rsplitn(2, '.')` splits, then
    URL-safe-no-pad base64 decode of the header segment, then JSON
    deserialization of a `Header` whose `alg` field is a closed enum);
  * `serde_json` deserialization of the `Claims` struct
    `{ exp : Option<u64>, iss : Option<String> }` (JSON grammar with the
    usual serde_json restrictions: strict number grammar, escaped control
    characters, UTF-8 input, no trailing data, duplicate known fields
    rejected, unknown fields ignored).
-/

namespace OidcLoki

/-! ### Character helpers -/

/-- The double-quote character (byte 34). -/
def quoteChar : Char := Char.ofNat 34

/-- The backslash character (byte 92). -/
def backslashChar : Char := Char.ofNat 92

/-- The opening curly-brace character (byte 123). -/
def lbraceChar : Char := Char.ofNat 123

/-- The closing curly-brace character (byte 125). -/
def rbraceChar : Char := Char.ofNat 125

/-- Lower-case a string, character by character, as Rust
`str::to_lowercase` does on the ASCII algorithm names that reach it. -/
def toLowerList (s : List Char) : List Char := s.map Char.toLower

/-- Rust `str::ends_with('.')`: the last character exists and is a dot. -/
def endsWithDot (s : List Char) : Bool :=
  match s.getLast? with
  | some c => c = '.'
  | none => false

/-- Rust `str::split('.')`: split a character list at every dot, keeping
empty chunks (always returns at least one chunk). -/
def splitOnDot : List Char → List (List Char)
  | [] => [[]]
  | c :: rest =>
    let r := splitOnDot rest
    if c = '.' then [] :: r
    else
      match r with
      | [] => [[c]]
      | chunk :: chunks => (c :: chunk) :: chunks

/-- Rust `str::rsplitn(2, '.')` distilled to what `decode_header` uses:
split at the LAST dot, returning `(before, after)`; `none` when the
string has no dot. -/
def rsplitOnceDot (s : List Char) : Option (List Char × List Char) :=
  match s with
  | [] => none
  | c :: rest =>
    match rsplitOnceDot rest with
    | some (pre, post) => some (c :: pre, post)
    | none => if c = '.' then some ([], rest) else none

/-! ### base64 (the `base64` crate)

Bytes are `Nat`s below 256.  `b64DecodeCore` decodes a padding-free
character list: full 4-character chunks yield 3 bytes, a trailing
2-character chunk yields 1 byte and a trailing 3-character chunk yields
2 bytes; a dangling single character is rejected, and non-zero trailing
bits are rejected (`decode_allow_trailing_bits = false`, the crate
default for both engines the source uses). -/

/-- Value of a character in the standard base64 alphabet. -/
def stdB64Val (c : Char) : Option Nat :=
  if 'A' ≤ c ∧ c ≤ 'Z' then some (c.toNat - 65)
  else if 'a' ≤ c ∧ c ≤ 'z' then some (c.toNat - 97 + 26)
  else if '0' ≤ c ∧ c ≤ '9' then some (c.toNat - 48 + 52)
  else if c = '+' then some 62
  else if c = '/' then some 63
  else none

/-- Value of a character in the URL-safe base64 alphabet. -/
def urlB64Val (c : Char) : Option Nat :=
  if 'A' ≤ c ∧ c ≤ 'Z' then some (c.toNat - 65)
  else if 'a' ≤ c ∧ c ≤ 'z' then some (c.toNat - 97 + 26)
  else if '0' ≤ c ∧ c ≤ '9' then some (c.toNat - 48 + 52)
  else if c = '-' then some 62
  else if c = '_' then some 63
  else none

/-- Decode a padding-free base64 character list with the given alphabet. -/
def b64DecodeCore (tbl : Char → Option Nat) : List Char → Option (List Nat)
  | [] => some []
  | [_] => none
  | [c1, c2] => do
    let v1 ← tbl c1
    let v2 ← tbl c2
    if v2 % 16 = 0 then pure [v1 * 4 + v2 / 16] else none
  | [c1, c2, c3] => do
    let v1 ← tbl c1
    let v2 ← tbl c2
    let v3 ← tbl c3
    if v3 % 4 = 0 then pure [v1 * 4 + v2 / 16, (v2 % 16) * 16 + v3 / 4]
    else none
  | c1 :: c2 :: c3 :: c4 :: rest => do
    let v1 ← tbl c1
    let v2 ← tbl c2
    let v3 ← tbl c3
    let v4 ← tbl c4
    let tail ← b64DecodeCore tbl rest
    pure ([v1 * 4 + v2 / 16, (v2 % 16) * 16 + v3 / 4, (v3 % 4) * 64 + v4] ++ tail)

/-- Number of trailing `=` characters. -/
def trailingEq (s : List Char) : Nat :=
  (s.reverse.takeWhile (fun c => c = '=')).length

/-- Decode with the `base64::engine::general_purpose::STANDARD` engine:
standard alphabet, canonical padding required
(`DecodePaddingMode::RequireCanonical`). -/
def b64DecodeStandardPad (s : List Char) : Option (List Nat) :=
  let k := trailingEq s
  let core := s.take (s.length - k)
  if k ≤ 2 ∧ (core.length + k) % 4 = 0 then b64DecodeCore stdB64Val core
  else none

/-- Decode with the `base64::engine::general_purpose::URL_SAFE_NO_PAD`
engine: URL-safe alphabet, no padding accepted
(`DecodePaddingMode::RequireNone`; an `=` is not in the alphabet, so the
core decoder rejects it). -/
def b64DecodeUrlSafeNoPad (s : List Char) : Option (List Nat) :=
  b64DecodeCore urlB64Val s

/-! ### UTF-8 decoding (serde_json reads UTF-8 bytes) -/

/-- Is `b` a UTF-8 continuation byte (`0x80 ≤ b < 0xC0`)? -/
def isCont (b : Nat) : Bool := 128 ≤ b ∧ b < 192

/-- Decode a UTF-8 byte list to characters, rejecting ill-formed
sequences (overlong encodings, surrogates, out-of-range code points,
truncated sequences), as serde_json does for its input. -/
def utf8Decode (bs : List Nat) : Option (List Char) :=
  match bs with
  | [] => some []
  | b1 :: rest =>
    if b1 < 128 then
      (utf8Decode rest).map (fun t => Char.ofNat b1 :: t)
    else if b1 < 194 then none
    else if b1 < 224 then
      match rest with
      | b2 :: rest2 =>
        if isCont b2 then
          (utf8Decode rest2).map
            (fun t => Char.ofNat ((b1 - 192) * 64 + (b2 - 128)) :: t)
        else none
      | [] => none
    else if b1 < 240 then
      match rest with
      | b2 :: b3 :: rest3 =>
        if isCont b2 ∧ isCont b3 ∧ (b1 ≠ 224 ∨ 160 ≤ b2) ∧ (b1 ≠ 237 ∨ b2 < 160) then
          (utf8Decode rest3).map
            (fun t =>
              Char.ofNat ((b1 - 224) * 4096 + (b2 - 128) * 64 + (b3 - 128)) :: t)
        else none
      | _ => none
    else if b1 < 245 then
      match rest with
      | b2 :: b3 :: b4 :: rest4 =>
        if isCont b2 ∧ isCont b3 ∧ isCont b4 ∧
            (b1 ≠ 240 ∨ 144 ≤ b2) ∧ (b1 ≠ 244 ∨ b2 < 144) then
          (utf8Decode rest4).map
            (fun t =>
              Char.ofNat ((b1 - 240) * 262144 + (b2 - 128) * 4096 +
                (b3 - 128) * 64 + (b4 - 128)) :: t)
        else none
      | _ => none
    else none

/-! ### JSON values and the serde_json grammar -/

/-- A parsed JSON value.  Numbers keep their sign, the numeric value of
their integer digits, and whether they are a plain integer (no fraction
and no exponent) — exactly the information serde_json's `u64`
deserialization of the `exp` claim depends on. -/
inductive Json where
  | jnull : Json
  | jbool : Bool → Json
  | jnum : Bool → Nat → Bool → Json
  | jstr : List Char → Json
  | jarr : List Json → Json
  | jobj : List (List Char × Json) → Json

/-- JSON whitespace: space, tab, line feed, carriage return. -/
def isJsonWs (c : Char) : Bool :=
  c = ' ' ∨ c.toNat = 9 ∨ c.toNat = 10 ∨ c.toNat = 13

/-- Drop leading JSON whitespace. -/
def skipWs (s : List Char) : List Char := s.dropWhile isJsonWs

/-- Hexadecimal digit value. -/
def hexVal (c : Char) : Option Nat :=
  if '0' ≤ c ∧ c ≤ '9' then some (c.toNat - 48)
  else if 'a' ≤ c ∧ c ≤ 'f' then some (c.toNat - 97 + 10)
  else if 'A' ≤ c ∧ c ≤ 'F' then some (c.toNat - 65 + 10)
  else none

/-- Decimal digit test. -/
def isDigitCh (c : Char) : Bool := '0' ≤ c ∧ c ≤ '9'

/-- Numeric value of a list of decimal digits. -/
def digitsVal (ds : List Char) : Nat :=
  ds.foldl (fun a c => a * 10 + (c.toNat - 48)) 0

/-- Parse the body of a JSON string (after the opening quote), handling
the escape sequences serde_json accepts, rejecting raw control
characters and lone surrogates.  Returns the decoded content and the
input remaining after the closing quote. -/
def parseStrBody (fuel : Nat) (s : List Char) : Option (List Char × List Char) :=
  match fuel with
  | 0 => none
  | fuel + 1 =>
    match s with
    | [] => none
    | c :: rest =>
      if c = quoteChar then some ([], rest)
      else if c = backslashChar then
        match rest with
        | [] => none
        | e :: rest2 =>
          if e = quoteChar ∨ e = backslashChar ∨ e = '/' then
            (parseStrBody fuel rest2).map (fun (t, r) => (e :: t, r))
          else if e = 'b' then
            (parseStrBody fuel rest2).map (fun (t, r) => (Char.ofNat 8 :: t, r))
          else if e = 'f' then
            (parseStrBody fuel rest2).map (fun (t, r) => (Char.ofNat 12 :: t, r))
          else if e = 'n' then
            (parseStrBody fuel rest2).map (fun (t, r) => (Char.ofNat 10 :: t, r))
          else if e = 'r' then
            (parseStrBody fuel rest2).map (fun (t, r) => (Char.ofNat 13 :: t, r))
          else if e = 't' then
            (parseStrBody fuel rest2).map (fun (t, r) => (Char.ofNat 9 :: t, r))
          else if e = 'u' then
            match rest2 with
            | h1 :: h2 :: h3 :: h4 :: rest3 => do
              let v1 ← hexVal h1
              let v2 ← hexVal h2
              let v3 ← hexVal h3
              let v4 ← hexVal h4
              let cp := v1 * 4096 + v2 * 256 + v3 * 16 + v4
              if 55296 ≤ cp ∧ cp < 56320 then
                -- high surrogate: a low surrogate escape must follow
                match rest3 with
                | s1 :: s2 :: g1 :: g2 :: g3 :: g4 :: rest4 => do
                  if s1 = backslashChar ∧ s2 = 'u' then
                    let w1 ← hexVal g1
                    let w2 ← hexVal g2
                    let w3 ← hexVal g3
                    let w4 ← hexVal g4
                    let lo := w1 * 4096 + w2 * 256 + w3 * 16 + w4
                    if 56320 ≤ lo ∧ lo < 57344 then
                      let code := 65536 + (cp - 55296) * 1024 + (lo - 56320)
                      (parseStrBody fuel rest4).map
                        (fun (t, r) => (Char.ofNat code :: t, r))
                    else none
                  else none
                | _ => none
              else if 56320 ≤ cp ∧ cp < 57344 then none
              else
                (parseStrBody fuel rest3).map (fun (t, r) => (Char.ofNat cp :: t, r))
            | _ => none
          else none
      else if c.toNat < 32 then none
      else (parseStrBody fuel rest).map (fun (t, r) => (c :: t, r))

/-- Parse a JSON number starting at `s` (first character is `-` or a
digit): optional minus, integer digits with no superfluous leading zero,
optional fraction, optional exponent.  Returns the `Json.jnum` and the
remaining input. -/
def parseNum (s : List Char) : Option (Json × List Char) :=
  let (neg, s1) :=
    match s with
    | c :: rest => if c = '-' then (true, rest) else (false, s)
    | [] => (false, s)
  let ds := s1.takeWhile isDigitCh
  let s2 := s1.dropWhile isDigitCh
  if ds = [] then none
  else if ds.length > 1 ∧ ds.headD '0' = '0' then none
  else
    let (fracOk, hasFrac, s3) :=
      match s2 with
      | c :: rest =>
        if c = '.' then
          let fds := rest.takeWhile isDigitCh
          (!fds.isEmpty, true, rest.dropWhile isDigitCh)
        else (true, false, s2)
      | [] => (true, false, s2)
    if fracOk = false then none
    else
      let (expOk, hasExp, s4) :=
        match s3 with
        | c :: rest =>
          if c = 'e' ∨ c = 'E' then
            let rest2 :=
              match rest with
              | d :: r2 => if d = '+' ∨ d = '-' then r2 else rest
              | [] => rest
            let eds := rest2.takeWhile isDigitCh
            (!eds.isEmpty, true, rest2.dropWhile isDigitCh)
          else (true, false, s3)
        | [] => (true, false, s3)
      if expOk = false then none
      else some (Json.jnum neg (digitsVal ds) (!hasFrac && !hasExp), s4)

/-- The state of the recursive-descent JSON parser: about to read a
value, or inside the member list of an object, or inside the element
list of an array (`first` is true before the first member/element;
`acc` holds what was already parsed, most recent first). -/
inductive PMode where
  | value : PMode
  | objMembers : Bool → List (List Char × Json) → PMode
  | arrElems : Bool → List Json → PMode

/-- The three mutually recursive serde_json parse routines (value,
object members, array elements) as one function, structurally recursive
on `fuel`, which bounds the nesting depth; the top-level entry point
supplies more fuel than any input of that length can consume, so on real
inputs the parser never runs dry.  Objects and arrays follow the
grammar serde_json implements: members separated by commas, no trailing
comma, object keys are strings followed by a colon. -/
def parseStep : Nat → PMode → List Char → Option (Json × List Char)
  | 0, _, _ => none
  | fuel + 1, PMode.value, s0 =>
    match skipWs s0 with
    | [] => none
    | c :: rest =>
      if c = quoteChar then
        (parseStrBody (fuel + 1) rest).map (fun (t, r) => (Json.jstr t, r))
      else if c = lbraceChar then parseStep fuel (PMode.objMembers true []) rest
      else if c = '[' then parseStep fuel (PMode.arrElems true []) rest
      else if c = 't' then
        match rest with
        | 'r' :: 'u' :: 'e' :: r => some (Json.jbool true, r)
        | _ => none
      else if c = 'f' then
        match rest with
        | 'a' :: 'l' :: 's' :: 'e' :: r => some (Json.jbool false, r)
        | _ => none
      else if c = 'n' then
        match rest with
        | 'u' :: 'l' :: 'l' :: r => some (Json.jnull, r)
        | _ => none
      else if c = '-' ∨ isDigitCh c then parseNum (c :: rest)
      else none
  | fuel + 1, PMode.objMembers first acc, s0 =>
    match skipWs s0 with
    | [] => none
    | c :: rest =>
      if c = rbraceChar then some (Json.jobj acc.reverse, rest)
      else
        match
          (if first then some (c :: rest)
           else if c = ',' then some (skipWs rest)
           else none) with
        | none => none
        | some ks =>
          match ks with
          | [] => none
          | k :: rest1 =>
            if k = quoteChar then
              match parseStrBody (fuel + 1) rest1 with
              | some (key, rest2) =>
                match skipWs rest2 with
                | ':' :: rest3 =>
                  match parseStep fuel PMode.value rest3 with
                  | some (v, rest4) =>
                    parseStep fuel (PMode.objMembers false ((key, v) :: acc))
                      rest4
                  | none => none
                | _ => none
              | none => none
            else none
  | fuel + 1, PMode.arrElems first acc, s0 =>
    match skipWs s0 with
    | [] => none
    | c :: rest =>
      if c = ']' then some (Json.jarr acc.reverse, rest)
      else
        match
          (if first then some (c :: rest)
           else if c = ',' then some rest
           else none) with
        | none => none
        | some es =>
          match parseStep fuel PMode.value es with
          | some (v, rest2) =>
            parseStep fuel (PMode.arrElems false (v :: acc)) rest2
          | none => none

/-- Parse a byte list as one JSON document, as `serde_json::from_slice`
does: UTF-8 decode, one value, nothing but whitespace after it. -/
def parseJsonTop (bytes : List Nat) : Option Json :=
  match utf8Decode bytes with
  | none => none
  | some chars =>
    match parseStep (chars.length + 1) PMode.value chars with
    | some (v, rest) => if skipWs rest = [] then some v else none
    | none => none

/-! ### The `jsonwebtoken` data model -/

/-- `jsonwebtoken::Algorithm`: the closed set of JWS algorithm names the
header parser recognizes.  There is no `none` variant. -/
inductive Algorithm where
  | HS256 | HS384 | HS512
  | ES256 | ES384
  | RS256 | RS384 | RS512
  | PS256 | PS384 | PS512
  | EdDSA
deriving DecidableEq

/-- The `Debug` rendering of an `Algorithm` value, as produced by
`format!("{:?}", header.alg)` in the source. -/
def algName : Algorithm → List Char
  | .HS256 => "HS256".data
  | .HS384 => "HS384".data
  | .HS512 => "HS512".data
  | .ES256 => "ES256".data
  | .ES384 => "ES384".data
  | .RS256 => "RS256".data
  | .RS384 => "RS384".data
  | .RS512 => "RS512".data
  | .PS256 => "PS256".data
  | .PS384 => "PS384".data
  | .PS512 => "PS512".data
  | .EdDSA => "EdDSA".data

/-- Serde deserialization of `Algorithm` from a JSON string: an exact,
case-sensitive match against a variant name; anything else (including
the string `none` in any casing) is an unknown-variant error. -/
def algFromName (s : List Char) : Option Algorithm :=
  if s = "HS256".data then some .HS256
  else if s = "HS384".data then some .HS384
  else if s = "HS512".data then some .HS512
  else if s = "ES256".data then some .ES256
  else if s = "ES384".data then some .ES384
  else if s = "RS256".data then some .RS256
  else if s = "RS384".data then some .RS384
  else if s = "RS512".data then some .RS512
  else if s = "PS256".data then some .PS256
  else if s = "PS384".data then some .PS384
  else if s = "PS512".data then some .PS512
  else if s = "EdDSA".data then some .EdDSA
  else none

/-- `jsonwebtoken::Header`.  Only `alg` matters to `validate_token`; the
other fields are carried so that their serde type checks are part of the
model. -/
structure Header where
  alg : Algorithm
  typ : Option (List Char) := none
  cty : Option (List Char) := none
  jku : Option (List Char) := none
  jwk : Option (List (List Char × Json)) := none
  kid : Option (List Char) := none
  x5u : Option (List Char) := none
  x5c : Option (List (List Char)) := none
  x5t : Option (List Char) := none
  x5tS256 : Option (List Char) := none

/-- The `Claims` struct of the source
(`exp : Option<u64>`, `iss : Option<String>`). -/
structure Claims where
  exp : Option Nat := none
  iss : Option (List Char) := none

/-- Look up a known field in the parsed members of a JSON object, as a
serde-derived `Deserialize` does: absent is fine, present once yields
the value, present more than once is a duplicate-field error. -/
def getField (fields : List (List Char × Json)) (key : List Char) :
    Option (Option Json) :=
  match fields.filter (fun f => f.1 = key) with
  | [] => some none
  | [f] => some (some f.2)
  | _ => none

/-- Serde `Option<String>` from an optional JSON value: absent or
`null` is `none`, a string is `some`, anything else is a type error. -/
def asOptString : Option Json → Option (Option (List Char))
  | none => some none
  | some .jnull => some none
  | some (.jstr s) => some (some s)
  | some _ => none

/-- Serde `Option<Vec<String>>` from an optional JSON value. -/
def asOptStringList : Option Json → Option (Option (List (List Char)))
  | none => some none
  | some .jnull => some none
  | some (.jarr elems) =>
    let rec strs : List Json → Option (List (List Char))
      | [] => some []
      | .jstr s :: rest => (strs rest).map (fun t => s :: t)
      | _ => none
    (strs elems).map (fun l => some l)
  | some _ => none

/-- Serde `Option<u64>` from an optional JSON value: the number must be
a plain integer (no fraction, no exponent) representable as a `u64`
(serde_json also lets the integer `-0` through as zero). -/
def asOptU64 : Option Json → Option (Option Nat)
  | none => some none
  | some .jnull => some none
  | some (.jnum neg v pureInt) =>
    if pureInt ∧ (neg = false ∨ v = 0) ∧ v < 2 ^ 64 then some (some v)
    else none
  | some _ => none

/-- Serde `Option<Jwk>`, modelled shallowly: a `Jwk` must at least be a
JSON object whose `kty` member is one of the key-type tags
`jsonwebtoken` knows; the per-key-type parameter fields are not
modelled.  No claim depends on `jwk` headers. -/
def asOptJwk : Option Json → Option (Option (List (List Char × Json)))
  | none => some none
  | some .jnull => some none
  | some (.jobj fields) =>
    match getField fields ("kty".data) with
    | some (some (.jstr k)) =>
      if k = "EC".data ∨ k = "RSA".data ∨ k = "oct".data ∨ k = "OKP".data then
        some (some fields)
      else none
    | _ => none
  | some _ => none

/-- Optional string field of a JSON object, serde style. -/
def optStrField (fields : List (List Char × Json)) (key : List Char) :
    Option (Option (List Char)) :=
  (getField fields key).bind asOptString

/-- Serde deserialization of `jsonwebtoken::Header` from a JSON value:
the document must be an object, `alg` is required and must name a known
algorithm, the other known fields are optional but type-checked, and
unknown fields are ignored.  All error causes (missing or non-string or
unknown `alg`, duplicate known field, ill-typed known field) collapse to
`none`, which is all that the caller of `decode_header` can observe. -/
def headerFromJson : Json → Option Header
  | .jobj fields =>
    (getField fields ("alg".data)).bind fun algJ =>
    match algJ with
    | some (.jstr s) =>
      (algFromName s).bind fun alg =>
      (optStrField fields ("typ".data)).bind fun typ =>
      (optStrField fields ("cty".data)).bind fun cty =>
      (optStrField fields ("jku".data)).bind fun jku =>
      ((getField fields ("jwk".data)).bind asOptJwk).bind fun jwk =>
      (optStrField fields ("kid".data)).bind fun kid =>
      (optStrField fields ("x5u".data)).bind fun x5u =>
      ((getField fields ("x5c".data)).bind asOptStringList).bind fun x5c =>
      (optStrField fields ("x5t".data)).bind fun x5t =>
      (optStrField fields ("x5t#S256".data)).bind fun x5tS256 =>
      some { alg, typ, cty, jku, jwk, kid, x5u, x5c, x5t, x5tS256 }
    | _ => none
  | _ => none

/-- Serde deserialization of the source's `Claims` struct: the document
must be an object; `exp` and `iss` are optional; unknown fields are
ignored. -/
def claimsFromJson : Json → Option Claims
  | .jobj fields =>
    ((getField fields ("exp".data)).bind asOptU64).bind fun exp =>
    (optStrField fields ("iss".data)).bind fun iss =>
    some { exp, iss }
  | _ => none

/-- The `jsonwebtoken` error kinds `decode_header` can produce, as they
reach the `map_err` in `validate_token`.  `renderJwtError` stands in for
the library's `Display` output; no claim depends on its exact text. -/
inductive JwtError where
  | InvalidToken
  | Base64Err
  | JsonErr
deriving DecidableEq

/-- Stand-in for the `Display` text of a `jsonwebtoken` error. -/
def renderJwtError : JwtError → List Char
  | .InvalidToken => "InvalidToken".data
  | .Base64Err => "Base64 error".data
  | .JsonErr => "JSON error".data

/-- `jsonwebtoken::Header::from_encoded`: URL-safe-no-pad base64 decode
of the header segment, then JSON deserialization of a `Header`. -/
def headerFromEncoded (seg : List Char) : Except JwtError Header :=
  match b64DecodeUrlSafeNoPad seg with
  | none => .error .Base64Err
  | some bytes =>
    match parseJsonTop bytes with
    | none => .error .JsonErr
    | some j =>
      match headerFromJson j with
      | none => .error .JsonErr
      | some h => .ok h

/-- `jsonwebtoken::decode_header`: two `rsplitn(2, '.')` splits — the
token must contain at least two dots — then decode the part before the
second-to-last dot as the header. -/
def decode_header (token : List Char) : Except JwtError Header :=
  match rsplitOnceDot token with
  | none => .error .InvalidToken
  | some (message, _signature) =>
    match rsplitOnceDot message with
    | none => .error .InvalidToken
    | some (headerSeg, _payload) => headerFromEncoded headerSeg

/-! ### `validate_token` (main.rs lines 111-178) -/

/-- The hardcoded constant `LOKI_URL` (main.rs line 14). -/
def LOKI_URL : List Char := "http://localhost:9000".data

/-- Is the algorithm in the HMAC family matched by Security Check 2? -/
def isHmac : Algorithm → Bool
  | .HS256 => true
  | .HS384 => true
  | .HS512 => true
  | _ => false

/-- The error string `format!("Invalid token format: {}", e)`. -/
def fmtInvalidTokenFormat (e : JwtError) : List Char :=
  "Invalid token format: ".data ++ renderJwtError e

/-- The unsigned-token error string (emitted by both the HS256-and-
trailing-dot branch and the dead lower-cased-name branch). -/
def algNoneMsg : List Char :=
  "SECURITY: token uses alg:none - unsigned tokens not allowed".data

/-- The symmetric-algorithm error string. -/
def symmetricMsg (a : Algorithm) : List Char :=
  "SECURITY: symmetric algorithm ".data ++ algName a ++
    " not allowed - possible key confusion attack".data

/-- The too-few-segments error string. -/
def invalidStructureMsg : List Char := "Invalid token structure".data

/-- The claims base64 error string
`format!("Invalid claims encoding: {}", e)`; the suffix stands in for
the `base64` crate's `Display` output. -/
def invalidClaimsEncodingMsg : List Char :=
  "Invalid claims encoding: ".data ++ "base64 decode error".data

/-- The claims JSON error string
`format!("Invalid claims JSON: {}", e)`; the suffix stands in for the
serde_json `Display` output. -/
def invalidClaimsJsonMsg : List Char :=
  "Invalid claims JSON: ".data ++ "JSON parse error".data

/-- The expired-token error string. -/
def expiredMsg : List Char := "SECURITY: token is expired".data

/-- The error string `format!("SECURITY: unexpected issuer: {}", iss)`. -/
def unexpectedIssuerMsg (iss : List Char) : List Char :=
  "SECURITY: unexpected issuer: ".data ++ iss

/-- Lines 148-154: decode the claims segment as base64 — the
`STANDARD` engine first, `URL_SAFE_NO_PAD` as the `or_else` fallback. -/
def decode_seg_b64 (seg : List Char) : Except (List Char) (List Nat) :=
  match b64DecodeStandardPad seg with
  | some bytes => .ok bytes
  | none =>
    match b64DecodeUrlSafeNoPad seg with
    | some bytes => .ok bytes
    | none => .error invalidClaimsEncodingMsg

/-- Lines 143-154: split the raw token on dots, require at least two
segments, and decode segment index 1 with the dual-alphabet fallback. -/
def decode_claims_bytes (token : List Char) : Except (List Char) (List Nat) :=
  if (splitOnDot token).length < 2 then .error invalidStructureMsg
  else decode_seg_b64 ((splitOnDot token).getD 1 [])

/-- Lines 156-157: parse the decoded claims bytes as JSON into the
`Claims` struct. -/
def parse_claims (bytes : List Nat) : Except (List Char) Claims :=
  match parseJsonTop bytes with
  | none => .error invalidClaimsJsonMsg
  | some j =>
    match claimsFromJson j with
    | none => .error invalidClaimsJsonMsg
    | some c => .ok c

/-- Lines 170-175, Security Check 4: if an issuer claim is present it
must equal the hardcoded `LOKI_URL`. -/
def check_iss (claims : Claims) : Except (List Char) Unit :=
  match claims.iss with
  | some iss => if iss ≠ LOKI_URL then .error (unexpectedIssuerMsg iss) else .ok ()
  | none => .ok ()

/-- Lines 159-175, Security Checks 3 and 4: reject an `exp` strictly in
the past, then check the issuer. -/
def check_exp_iss (now : Nat) (claims : Claims) : Except (List Char) Unit :=
  match claims.exp with
  | some e => if e < now then .error expiredMsg else check_iss claims
  | none => check_iss claims

/-- `validate_token` (main.rs lines 111-178).  `now` is the value the
code reads from the system clock (seconds since the Unix epoch); the
function is otherwise a pure function of the token string. -/
def validate_token (now : Nat) (token : List Char) : Except (List Char) Unit :=
  match decode_header token with
  | .error e => .error (fmtInvalidTokenFormat e)
  | .ok header =>
    -- Security Check 1 as written: alg is HS256 AND the raw token ends in a dot
    if header.alg = Algorithm.HS256 ∧ endsWithDot token = true then
      .error algNoneMsg
    -- the explicit lower-cased comparison of the Debug name against "none"
    else if toLowerList (algName header.alg) = "none".data then
      .error algNoneMsg
    -- Security Check 2: the HMAC family
    else if isHmac header.alg = true then
      .error (symmetricMsg header.alg)
    else
      match decode_claims_bytes token with
      | .error m => .error m
      | .ok bytes =>
        match parse_claims bytes with
        | .error m => .error m
        | .ok claims => check_exp_iss now claims

/-! ### Specification-side definitions

The spec describes the verdict as a sum type whose rejection carries a
`RejectKind` tag.  The code returns `Result<(), String>`, so the kind of
a rejection exists only as the shape of the message string; `classifyMsg`
recovers it from the fixed prefix each defense uses. -/

/-- The rejection taxonomy named by the spec. -/
inductive RejectKind where
  | Malformed
  | UnsignedToken
  | SymmetricAlgorithm
  | Expired
  | UnexpectedIssuer
deriving DecidableEq

/-- Recover the spec's `RejectKind` from a rejection message by its
fixed prefix.  The variable-suffix messages (unexpected issuer, invalid
token format) are matched on prefixes no other defense's message
starts with. -/
def classifyMsg (s : List Char) : Option RejectKind :=
  if List.isPrefixOf ("SECURITY: unexpected issuer: ").data s then
    some .UnexpectedIssuer
  else if List.isPrefixOf ("SECURITY: symmetric algorithm ").data s then
    some .SymmetricAlgorithm
  else if List.isPrefixOf ("SECURITY: token uses alg:none").data s then
    some .UnsignedToken
  else if List.isPrefixOf ("SECURITY: token is expired").data s then
    some .Expired
  else if List.isPrefixOf ("Invalid token format: ").data s then
    some .Malformed
  else if List.isPrefixOf ("Invalid token structure").data s then
    some .Malformed
  else if List.isPrefixOf ("Invalid claims encoding: ").data s then
    some .Malformed
  else if List.isPrefixOf ("Invalid claims JSON: ").data s then
    some .Malformed
  else none

/-- `validate_token` with the dead branch removed: identical to the
source except that the lower-cased comparison of the algorithm's Debug
name against the string `none` (main.rs lines 123-129) is gone. -/
def validate_token_sans_lower_none (now : Nat) (token : List Char) :
    Except (List Char) Unit :=
  match decode_header token with
  | .error e => .error (fmtInvalidTokenFormat e)
  | .ok header =>
    if header.alg = Algorithm.HS256 ∧ endsWithDot token = true then
      .error algNoneMsg
    else if isHmac header.alg = true then
      .error (symmetricMsg header.alg)
    else
      match decode_claims_bytes token with
      | .error m => .error m
      | .ok bytes =>
        match parse_claims bytes with
        | .error m => .error m
        | .ok claims => check_exp_iss now claims

/-- What `validate_token` computes on a token of the shape
`pfx ++ fullStop :: sig` with `sig` non-empty and dot-free: a proof
artifact used to show the verdict does not depend on `sig`. -/
def validate_trailing (now : Nat) (pfx : List Char) : Except (List Char) Unit :=
  match rsplitOnceDot pfx with
  | none => .error (fmtInvalidTokenFormat JwtError.InvalidToken)
  | some (hseg, _payload) =>
    match headerFromEncoded hseg with
    | .error e => .error (fmtInvalidTokenFormat e)
    | .ok header =>
      if isHmac header.alg = true then .error (symmetricMsg header.alg)
      else
        match decode_seg_b64 ((splitOnDot pfx).getD 1 []) with
        | .error m => .error m
        | .ok bytes =>
          match parse_claims bytes with
          | .error m => .error m
          | .ok claims => check_exp_iss now claims

/-! ### Lemmas about the string-splitting primitives -/

theorem rsplitOnceDot_eq_none (s : List Char) (h : '.' ∉ s) :
    rsplitOnceDot s = none := by
  induction s with
  | nil => rfl
  | cons c rest ih =>
    have hc : ¬c = '.' := fun hc => h (hc ▸ List.mem_cons_self c rest)
    have hr : '.' ∉ rest := fun hm => h (List.mem_cons_of_mem c hm)
    simp [rsplitOnceDot, ih hr, hc]

theorem rsplitOnceDot_append (pfx s : List Char) (h : '.' ∉ s) :
    rsplitOnceDot (pfx ++ '.' :: s) = some (pfx, s) := by
  induction pfx with
  | nil => simp [rsplitOnceDot, rsplitOnceDot_eq_none s h]
  | cons c pfx ih => simp [rsplitOnceDot, ih]

theorem rsplitOnceDot_mem (s : List Char) (p : List Char × List Char)
    (h : rsplitOnceDot s = some p) : '.' ∈ s := by
  induction s generalizing p with
  | nil => simp [rsplitOnceDot] at h
  | cons c rest ih =>
    rw [rsplitOnceDot] at h
    cases hr : rsplitOnceDot rest with
    | some q => exact List.mem_cons_of_mem c (ih q hr)
    | none =>
      rw [hr] at h
      by_cases hc : c = '.'
      · exact hc ▸ List.mem_cons_self c rest
      · simp [hc] at h

theorem splitOnDot_ne_nil (s : List Char) : splitOnDot s ≠ [] := by
  cases s with
  | nil => simp [splitOnDot]
  | cons c rest =>
    rw [splitOnDot]
    by_cases hc : c = '.'
    · simp [hc]
    · simp only [hc, if_false]
      cases splitOnDot rest <;> simp

theorem splitOnDot_no_dot (s : List Char) (h : '.' ∉ s) :
    splitOnDot s = [s] := by
  induction s with
  | nil => rfl
  | cons c rest ih =>
    have hc : ¬c = '.' := fun hc => h (hc ▸ List.mem_cons_self c rest)
    have hr : '.' ∉ rest := fun hm => h (List.mem_cons_of_mem c hm)
    simp [splitOnDot, hc, ih hr]

theorem splitOnDot_append (pfx s : List Char) (h : '.' ∉ s) :
    splitOnDot (pfx ++ '.' :: s) = splitOnDot pfx ++ [s] := by
  induction pfx with
  | nil => simp [splitOnDot, splitOnDot_no_dot s h]
  | cons c pfx ih =>
    rw [List.cons_append, splitOnDot, splitOnDot, ih]
    by_cases hc : c = '.'
    · simp [hc]
    · simp only [hc, if_false]
      have := splitOnDot_ne_nil pfx
      cases hsp : splitOnDot pfx with
      | nil => exact absurd hsp this
      | cons chunk chunks => simp

theorem splitOnDot_length_two (s : List Char) (h : '.' ∈ s) :
    2 ≤ (splitOnDot s).length := by
  induction s with
  | nil => simp at h
  | cons c rest ih =>
    rw [splitOnDot]
    by_cases hc : c = '.'
    · have := splitOnDot_ne_nil rest
      simp only [hc, if_pos rfl, List.length_cons]
      cases hsp : splitOnDot rest with
      | nil => exact absurd hsp this
      | cons a l => simp
    · have hr : '.' ∈ rest := by
        rcases List.mem_cons.mp h with h1 | h1
        · exact absurd h1.symm hc
        · exact h1
      have h2 := ih hr
      simp only [hc, if_false]
      cases hsp : splitOnDot rest with
      | nil => exact absurd hsp (splitOnDot_ne_nil rest)
      | cons chunk chunks =>
        rw [hsp] at h2
        simpa using h2

theorem endsWithDot_append (pfx s : List Char) (h1 : s ≠ []) (h2 : '.' ∉ s) :
    endsWithDot (pfx ++ '.' :: s) = false := by
  have hg : (pfx ++ '.' :: s).getLast? = s.getLast? := by
    rw [List.getLast?_append_of_ne_nil pfx (by simp)]
    have : ('.' :: s) = ['.'] ++ s := rfl
    rw [this, List.getLast?_append_of_ne_nil ['.'] h1]
  have hlast : s.getLast h1 ∈ s := List.getLast_mem h1
  have hne : ¬s.getLast h1 = '.' := fun hc => h2 (hc ▸ hlast)
  rw [endsWithDot, hg, List.getLast?_eq_getLast s h1]
  simp [hne]

theorem decode_header_append (msg sig : List Char) (hs : '.' ∉ sig) :
    decode_header (msg ++ '.' :: sig) =
      (match rsplitOnceDot msg with
       | none => Except.error JwtError.InvalidToken
       | some (hseg, _) => headerFromEncoded hseg) := by
  rw [decode_header, rsplitOnceDot_append _ _ hs]

theorem decode_header_decomposed (hseg pseg sig : List Char)
    (hp : '.' ∉ pseg) (hs : '.' ∉ sig) :
    decode_header (hseg ++ '.' :: (pseg ++ '.' :: sig)) =
      headerFromEncoded hseg := by
  have e1 : hseg ++ '.' :: (pseg ++ '.' :: sig) =
      (hseg ++ '.' :: pseg) ++ '.' :: sig := by
    simp
  rw [e1, decode_header_append _ _ hs, rsplitOnceDot_append _ _ hp]

theorem splitOnDot_decomposed (hseg pseg sig : List Char)
    (hh : '.' ∉ hseg) (hp : '.' ∉ pseg) (hs : '.' ∉ sig) :
    splitOnDot (hseg ++ '.' :: (pseg ++ '.' :: sig)) = [hseg, pseg, sig] := by
  have e1 : hseg ++ '.' :: (pseg ++ '.' :: sig) =
      (hseg ++ '.' :: pseg) ++ '.' :: sig := by
    simp
  rw [e1, splitOnDot_append _ _ hs, splitOnDot_append _ _ hp,
    splitOnDot_no_dot _ hh]
  rfl

theorem decode_claims_decomposed (hseg pseg sig : List Char)
    (hh : '.' ∉ hseg) (hp : '.' ∉ pseg) (hs : '.' ∉ sig) :
    decode_claims_bytes (hseg ++ '.' :: (pseg ++ '.' :: sig)) =
      decode_seg_b64 pseg := by
  rw [decode_claims_bytes, splitOnDot_decomposed hseg pseg sig hh hp hs]
  rfl

/-! ### Lemmas about the algorithm names -/

theorem lower_algName_ne_none (a : Algorithm) :
    toLowerList (algName a) ≠ ("none").data := by
  cases a <;> decide

set_option maxHeartbeats 2000000 in
theorem algFromName_eq_some (s : List Char) (a : Algorithm)
    (h : algFromName s = some a) : s = algName a := by
  unfold algFromName at h
  repeat' (split at h)
  all_goals
    (first
      | (injection h with h0; subst h0; assumption)
      | exact Option.noConfusion h)

theorem algFromName_of_lower_none (s : List Char)
    (h : toLowerList s = ("none").data) : algFromName s = none := by
  cases hc : algFromName s with
  | none => rfl
  | some a =>
    exfalso
    have hs := algFromName_eq_some s a hc
    exact lower_algName_ne_none a (hs ▸ h)

/-! ### Lemmas about message classification -/

theorem isPrefixOf_append_self (p t : List Char) :
    List.isPrefixOf p (p ++ t) = true := by
  simp

theorem classify_issuerMsg (iss : List Char) :
    classifyMsg (unexpectedIssuerMsg iss) = some RejectKind.UnexpectedIssuer := by
  unfold classifyMsg unexpectedIssuerMsg
  rw [isPrefixOf_append_self]
  rfl

theorem classify_fmtMsg (e : JwtError) :
    classifyMsg (fmtInvalidTokenFormat e) = some RejectKind.Malformed := by
  cases e <;> decide

theorem classify_symmetricMsg (a : Algorithm) :
    classifyMsg (symmetricMsg a) = some RejectKind.SymmetricAlgorithm := by
  cases a <;> decide

/-! ### Inversion lemmas for the error shapes of each stage -/

theorem decode_seg_b64_error (seg : List Char) (m : List Char)
    (h : decode_seg_b64 seg = .error m) : m = invalidClaimsEncodingMsg := by
  unfold decode_seg_b64 at h
  repeat' (split at h)
  all_goals
    (first
      | (injection h with h0; exact h0.symm)
      | exact Except.noConfusion h)

theorem decode_claims_bytes_error (t : List Char) (m : List Char)
    (h : decode_claims_bytes t = .error m) :
    m = invalidStructureMsg ∨ m = invalidClaimsEncodingMsg := by
  unfold decode_claims_bytes at h
  split at h
  · injection h with h0
    exact Or.inl h0.symm
  · exact Or.inr (decode_seg_b64_error _ _ h)

theorem parse_claims_error (b : List Nat) (m : List Char)
    (h : parse_claims b = .error m) : m = invalidClaimsJsonMsg := by
  unfold parse_claims at h
  repeat' (split at h)
  all_goals
    (first
      | (injection h with h0; exact h0.symm)
      | exact Except.noConfusion h)

theorem check_iss_error (c : Claims) (m : List Char)
    (h : check_iss c = .error m) : ∃ iss, m = unexpectedIssuerMsg iss := by
  unfold check_iss at h
  repeat' (split at h)
  all_goals
    (first
      | (injection h with h0; exact ⟨_, h0.symm⟩)
      | exact Except.noConfusion h)

theorem check_exp_iss_error (now : Nat) (c : Claims) (m : List Char)
    (h : check_exp_iss now c = .error m) :
    m = expiredMsg ∨ ∃ iss, m = unexpectedIssuerMsg iss := by
  unfold check_exp_iss at h
  repeat' (split at h)
  all_goals
    (first
      | (injection h with h0; exact Or.inl h0.symm)
      | exact Or.inr (check_iss_error _ _ h))

/-! ### Reduction lemmas for `validate_token`, one per control path -/

theorem validate_reduce_hdrErr (now : Nat) (token : List Char) (e : JwtError)
    (hd : decode_header token = .error e) :
    validate_token now token = .error (fmtInvalidTokenFormat e) := by
  rw [validate_token, hd]

theorem validate_reduce_branch1 (now : Nat) (token : List Char) (header : Header)
    (hd : decode_header token = .ok header)
    (hb1 : header.alg = Algorithm.HS256 ∧ endsWithDot token = true) :
    validate_token now token = .error algNoneMsg := by
  rw [validate_token, hd]
  simp [hb1.1, hb1.2]

theorem validate_reduce_hmac (now : Nat) (token : List Char) (header : Header)
    (hd : decode_header token = .ok header)
    (hb1 : ¬(header.alg = Algorithm.HS256 ∧ endsWithDot token = true))
    (hm : isHmac header.alg = true) :
    validate_token now token = .error (symmetricMsg header.alg) := by
  rw [validate_token, hd]
  simp [hb1, lower_algName_ne_none header.alg, hm]

theorem validate_reduce_claims (now : Nat) (token : List Char) (header : Header)
    (hd : decode_header token = .ok header)
    (hb1 : ¬(header.alg = Algorithm.HS256 ∧ endsWithDot token = true))
    (hm : isHmac header.alg = false) :
    validate_token now token =
      (match decode_claims_bytes token with
       | .error m => .error m
       | .ok bytes =>
         match parse_claims bytes with
         | .error m => .error m
         | .ok claims => check_exp_iss now claims) := by
  rw [validate_token, hd]
  simp [hb1, lower_algName_ne_none header.alg, hm]

theorem decode_claims_append (pfx s : List Char) (h2 : '.' ∉ s)
    (hlen : 2 ≤ (splitOnDot pfx).length) :
    decode_claims_bytes (pfx ++ '.' :: s) =
      decode_seg_b64 ((splitOnDot pfx).getD 1 []) := by
  rw [decode_claims_bytes, splitOnDot_append _ _ h2]
  rw [if_neg (by simp only [List.length_append, List.length_cons,
    List.length_nil]; omega)]
  rw [List.getD_append _ _ _ _ (by omega)]

/-- On a token of the shape `pfx ++ fullStop :: sig` with `sig` non-empty
and dot-free, `validate_token` computes `validate_trailing now pfx`:
nothing it does depends on the signature segment. -/
theorem validate_token_trailing (now : Nat) (pfx s : List Char)
    (h1 : s ≠ []) (h2 : '.' ∉ s) :
    validate_token now (pfx ++ '.' :: s) = validate_trailing now pfx := by
  cases hp : rsplitOnceDot pfx with
  | none =>
    have hd : decode_header (pfx ++ '.' :: s) = .error .InvalidToken := by
      rw [decode_header_append _ _ h2, hp]
    rw [validate_reduce_hdrErr now _ _ hd, validate_trailing, hp]
  | some pair =>
    obtain ⟨hseg, pseg⟩ := pair
    have hd : decode_header (pfx ++ '.' :: s) = headerFromEncoded hseg := by
      rw [decode_header_append _ _ h2, hp]
    cases hh : headerFromEncoded hseg with
    | error e =>
      rw [validate_reduce_hdrErr now _ _ (hd.trans hh), validate_trailing,
        hp]
      simp [hh]
    | ok header =>
      have hdo : decode_header (pfx ++ '.' :: s) = .ok header := hd.trans hh
      have he : endsWithDot (pfx ++ '.' :: s) = false :=
        endsWithDot_append _ _ h1 h2
      have hb1 : ¬(header.alg = Algorithm.HS256 ∧
          endsWithDot (pfx ++ '.' :: s) = true) := by
        intro hcc
        have hx := hcc.2
        rw [he] at hx
        exact Bool.noConfusion hx
      have hlen : 2 ≤ (splitOnDot pfx).length :=
        splitOnDot_length_two pfx (rsplitOnceDot_mem pfx _ hp)
      have hdc : decode_claims_bytes (pfx ++ '.' :: s) =
          decode_seg_b64 ((splitOnDot pfx).getD 1 []) :=
        decode_claims_append pfx s h2 hlen
      cases hm : isHmac header.alg with
      | true =>
        rw [validate_reduce_hmac now _ header hdo hb1 hm, validate_trailing,
          hp]
        simp [hh, hm]
      | false =>
        rw [validate_reduce_claims now _ header hdo hb1 hm, validate_trailing,
          hp]
        simp only [hh, hm, hdc, Bool.false_eq_true, if_false]

theorem validate_reduce_checks (now : Nat) (token : List Char)
    (header : Header) (bytes : List Nat) (claims : Claims)
    (hd : decode_header token = .ok header)
    (hb1 : ¬(header.alg = Algorithm.HS256 ∧ endsWithDot token = true))
    (hm : isHmac header.alg = false)
    (hc : decode_claims_bytes token = .ok bytes)
    (hpc : parse_claims bytes = .ok claims) :
    validate_token now token = check_exp_iss now claims := by
  rw [validate_reduce_claims now token header hd hb1 hm]
  simp only [hc, hpc]

theorem not_branch1_of_not_hmac (header : Header) (token : List Char)
    (hm : isHmac header.alg = false) :
    ¬(header.alg = Algorithm.HS256 ∧ endsWithDot token = true) := by
  intro hcc
  rw [hcc.1] at hm
  simp [isHmac] at hm

theorem check_exp_iss_some_lt (now : Nat) (c : Claims) (e : Nat)
    (he : c.exp = some e) (hlt : e < now) :
    check_exp_iss now c = .error expiredMsg := by
  rw [check_exp_iss]
  simp only [he]
  rw [if_pos hlt]

theorem check_exp_iss_some_ge (now : Nat) (c : Claims) (e : Nat)
    (he : c.exp = some e) (hge : ¬e < now) :
    check_exp_iss now c = check_iss c := by
  rw [check_exp_iss]
  simp only [he]
  rw [if_neg hge]

theorem check_exp_iss_none (now : Nat) (c : Claims) (he : c.exp = none) :
    check_exp_iss now c = check_iss c := by
  rw [check_exp_iss]
  simp only [he]

theorem check_iss_some_ne (c : Claims) (s : List Char)
    (hi : c.iss = some s) (hne : s ≠ LOKI_URL) :
    check_iss c = .error (unexpectedIssuerMsg s) := by
  rw [check_iss]
  simp only [hi]
  rw [if_pos hne]

theorem check_iss_some_eq (c : Claims) (s : List Char)
    (hi : c.iss = some s) (heq : s = LOKI_URL) :
    check_iss c = .ok () := by
  rw [check_iss]
  simp only [hi]
  rw [if_neg (fun hc => hc heq)]

theorem check_iss_none (c : Claims) (hi : c.iss = none) :
    check_iss c = .ok () := by
  rw [check_iss]
  simp only [hi]

theorem expired_ne_issuerMsg (iss : List Char) :
    expiredMsg ≠ unexpectedIssuerMsg iss := by
  intro h
  have hl := congrArg List.length h
  rw [unexpectedIssuerMsg, List.length_append] at hl
  have h1 : expiredMsg.length = 26 := rfl
  have h2 : (("SECURITY: unexpected issuer: ").data).length = 29 := rfl
  omega

theorem check_iss_ne_expired (c : Claims) :
    check_iss c ≠ .error expiredMsg := by
  intro h
  obtain ⟨iss, hiss⟩ := check_iss_error c expiredMsg h
  exact expired_ne_issuerMsg iss hiss

theorem decode_header_no_dot (token : List Char) (h : '.' ∉ token) :
    decode_header token = .error .InvalidToken := by
  rw [decode_header, rsplitOnceDot_eq_none _ h]

/-! ### Claim theorems -/

/-- Claim C1 (code bug evaluation): the claim says every token with an
empty signature segment (raw token ending in the separator) is rejected
with the unsigned-token rejection regardless of its non-none algorithm,
and every token whose decoded algorithm is `none` likewise.  The code
does neither: a well-formed RS256 token whose raw text ends in a dot is
ACCEPTED (the unsigned-token branch additionally requires `alg == HS256`),
and an `alg` of `none` in any casing never decodes (it is rejected
earlier, as a header-format error, not as an unsigned token). -/
theorem c1_empty_signature_accepted :
    validate_token 1759999999 (("eyJhbGciOiJSUzI1NiJ9.e30.").data) =
        .ok () ∧
      validate_token 1759999999 (("eyJhbGciOiJub25lIn0.e30.").data) =
        .error (fmtInvalidTokenFormat JwtError.JsonErr) :=
  ⟨rfl, rfl⟩

/-- Claim C2 (counterexample): an HS256 token whose raw text ends in the
segment separator is rejected with the unsigned-token message, not the
symmetric-algorithm one, so the claim "every HMAC-family token gets the
SymmetricAlgorithm rejection" fails on this input. -/
theorem c2_counterexample :
    validate_token 4242 (("eyJhbGciOiJIUzI1NiJ9.e30.").data) =
        .error algNoneMsg ∧
      algNoneMsg ≠ symmetricMsg Algorithm.HS256 :=
  ⟨rfl, by decide⟩

/-- Claim C2 (amended): every token whose decoded header algorithm is in
the HMAC family is rejected; the rejection is the symmetric-algorithm one
unless the algorithm is HS256 and the raw token ends in the segment
separator, in which case the unsigned-token rejection fires instead. -/
theorem c2_hmac_rejected (now : Nat) (token : List Char) (header : Header)
    (hd : decode_header token = .ok header)
    (hm : isHmac header.alg = true) :
    (∃ m, validate_token now token = .error m) ∧
      (¬(header.alg = Algorithm.HS256 ∧ endsWithDot token = true) →
        validate_token now token = .error (symmetricMsg header.alg)) ∧
      ((header.alg = Algorithm.HS256 ∧ endsWithDot token = true) →
        validate_token now token = .error algNoneMsg) := by
  refine ⟨?_, ?_, ?_⟩
  · by_cases hb1 : header.alg = Algorithm.HS256 ∧ endsWithDot token = true
    · exact ⟨algNoneMsg, validate_reduce_branch1 now token header hd hb1⟩
    · exact ⟨symmetricMsg header.alg,
        validate_reduce_hmac now token header hd hb1 hm⟩
  · intro hb1
    exact validate_reduce_hmac now token header hd hb1 hm
  · intro hb1
    exact validate_reduce_branch1 now token header hd hb1

/-- Witness for C2: an HS384 token with a non-empty signature segment is
rejected with the symmetric-algorithm message. -/
theorem c2_witness :
    validate_token 5 (("eyJhbGciOiJIUzM4NCJ9.e30.sig").data) =
      .error (symmetricMsg Algorithm.HS384) :=
  (c2_hmac_rejected 5 (("eyJhbGciOiJIUzM4NCJ9.e30.sig").data)
    { alg := Algorithm.HS384 } rfl rfl).2.1 (by decide)

/-- Claim C3 (counterexample): a token with exactly two dot-separated
segments (well-formed header and payload, missing signature segment) is
rejected as a header-format error — it does NOT proceed to the header
and policy checks, because `decode_header` requires two dots. -/
theorem c3_counterexample :
    validate_token 777 (("eyJhbGciOiJSUzI1NiJ9.e30").data) =
      .error (fmtInvalidTokenFormat JwtError.InvalidToken) :=
  rfl

/-- Claim C3 (amended): structurally invalid inputs are rejected (never a
crash — the model is a total function): a string with no dot and a
two-segment string both fail as header-format errors, a header segment
that is not URL-safe base64 fails as a header-format error, and a payload
that does not parse as JSON fails as a claims-JSON error.  A token with
exactly 2 dot-separated segments is thus also malformed; only an empty
THIRD segment (trailing separator) is tolerated. -/
theorem c3_malformed :
    (∀ now token, '.' ∉ token →
      validate_token now token =
        .error (fmtInvalidTokenFormat JwtError.InvalidToken)) ∧
      (∀ now hseg pseg, '.' ∉ hseg → '.' ∉ pseg →
        validate_token now (hseg ++ '.' :: pseg) =
          .error (fmtInvalidTokenFormat JwtError.InvalidToken)) ∧
      (∀ now hseg pseg sig, '.' ∉ pseg → '.' ∉ sig →
        b64DecodeUrlSafeNoPad hseg = none →
        validate_token now (hseg ++ '.' :: (pseg ++ '.' :: sig)) =
          .error (fmtInvalidTokenFormat JwtError.Base64Err)) ∧
      (∀ now token header bytes,
        decode_header token = .ok header →
        ¬(header.alg = Algorithm.HS256 ∧ endsWithDot token = true) →
        isHmac header.alg = false →
        decode_claims_bytes token = .ok bytes →
        parseJsonTop bytes = none →
        validate_token now token = .error invalidClaimsJsonMsg) := by
  refine ⟨?_, ?_, ?_, ?_⟩
  · intro now token h
    exact validate_reduce_hdrErr now token _ (decode_header_no_dot token h)
  · intro now hseg pseg hh hp
    have hd : decode_header (hseg ++ '.' :: pseg) = .error .InvalidToken := by
      rw [decode_header_append _ _ hp, rsplitOnceDot_eq_none _ hh]
    exact validate_reduce_hdrErr now _ _ hd
  · intro now hseg pseg sig hp hs hb64
    have hd : decode_header (hseg ++ '.' :: (pseg ++ '.' :: sig)) =
        .error .Base64Err := by
      rw [decode_header_decomposed hseg pseg sig hp hs, headerFromEncoded,
        hb64]
    exact validate_reduce_hdrErr now _ _ hd
  · intro now token header bytes hd hb1 hm hc hj
    rw [validate_reduce_claims now token header hd hb1 hm]
    simp only [hc]
    rw [parse_claims, hj]

/-- Witness for C3: each of the four malformed cases evaluated on a
concrete input. -/
theorem c3_witness :
    validate_token 1 (("noDots").data) =
        .error (fmtInvalidTokenFormat JwtError.InvalidToken) ∧
      validate_token 2
          (("eyJhbGciOiJSUzI1NiJ9").data ++ '.' :: ("e30").data) =
        .error (fmtInvalidTokenFormat JwtError.InvalidToken) ∧
      validate_token 3
          (("!!!").data ++ '.' :: (("e30").data ++ '.' :: ("x").data)) =
        .error (fmtInvalidTokenFormat JwtError.Base64Err) ∧
      validate_token 4 (("eyJhbGciOiJSUzI1NiJ9.AAAA.sig").data) =
        .error invalidClaimsJsonMsg :=
  ⟨c3_malformed.1 1 _ (by decide),
    c3_malformed.2.1 2 _ _ (by decide) (by decide),
    c3_malformed.2.2.1 3 _ _ _ (by decide) (by decide) rfl,
    c3_malformed.2.2.2 4 _ { alg := Algorithm.RS256 } ([0, 0, 0]) rfl
      (by decide) rfl rfl rfl⟩

/-- Claim C4: for every token that passes the structural and algorithm
checks, an `expiration` claim strictly below the current time rejects
with the expired-token message; an absent or not-yet-past `expiration`
does not reject on this check (the verdict is the issuer check's, and is
never the expired-token rejection). -/
theorem c4_expiration (now : Nat) (token : List Char) {header : Header}
    {bytes : List Nat} {claims : Claims}
    (hd : decode_header token = .ok header)
    (hm : isHmac header.alg = false)
    (hc : decode_claims_bytes token = .ok bytes)
    (hpc : parse_claims bytes = .ok claims) :
    (∀ e, claims.exp = some e → e < now →
        validate_token now token = .error expiredMsg) ∧
      (∀ e, claims.exp = some e → ¬e < now →
        validate_token now token = check_iss claims ∧
          validate_token now token ≠ .error expiredMsg) ∧
      (claims.exp = none →
        validate_token now token = check_iss claims ∧
          validate_token now token ≠ .error expiredMsg) := by
  have hb1 := not_branch1_of_not_hmac header token hm
  have hv := validate_reduce_checks now token header bytes claims hd hb1 hm
    hc hpc
  refine ⟨?_, ?_, ?_⟩
  · intro e he hlt
    rw [hv, check_exp_iss_some_lt now claims e he hlt]
  · intro e he hge
    have h2 : validate_token now token = check_iss claims := by
      rw [hv, check_exp_iss_some_ge now claims e he hge]
    exact ⟨h2, fun hcon => check_iss_ne_expired claims (h2.symm.trans hcon)⟩
  · intro he
    have h2 : validate_token now token = check_iss claims := by
      rw [hv, check_exp_iss_none now claims he]
    exact ⟨h2, fun hcon => check_iss_ne_expired claims (h2.symm.trans hcon)⟩

/-- Witness for C4: a token with `exp = 1` is rejected as expired at
time 1000 and is not rejected as expired at time 1 (where it is in fact
accepted, `1 < 1` being false). -/
theorem c4_witness :
    validate_token 1000 (("eyJhbGciOiJSUzI1NiJ9.eyJleHAiOjF9.sig").data) =
        .error expiredMsg ∧
      validate_token 1 (("eyJhbGciOiJSUzI1NiJ9.eyJleHAiOjF9.sig").data) ≠
        .error expiredMsg :=
  ⟨(c4_expiration 1000 (("eyJhbGciOiJSUzI1NiJ9.eyJleHAiOjF9.sig").data)
      rfl rfl rfl rfl).1 1 rfl (by decide),
    ((c4_expiration 1 (("eyJhbGciOiJSUzI1NiJ9.eyJleHAiOjF9.sig").data)
      rfl rfl rfl rfl).2.1 1 rfl (by decide)).2⟩

/-- Claim C5 (counterexample): the issuer comparison target is the
hardcoded constant `LOKI_URL`, not a caller-supplied configuration
value: the spec's own acceptance scenario (issuer
`https://trusted.example`, expected issuer `https://trusted.example`)
is REJECTED, while the token whose issuer happens to equal the constant
is accepted; `validate_token` takes no expected-issuer parameter at
all. -/
theorem c5_counterexample :
    validate_token 987
        (("eyJhbGciOiJSUzI1NiJ9.eyJpc3MiOiJodHRwczovL3RydXN0ZWQuZXhhbXBsZSJ9.sig").data) =
        .error (unexpectedIssuerMsg (("https://trusted.example").data)) ∧
      validate_token 987
        (("eyJhbGciOiJSUzI1NiJ9.eyJpc3MiOiJodHRwOi8vbG9jYWxob3N0OjkwMDAifQ.sig").data) =
        .ok () ∧
      LOKI_URL = ("http://localhost:9000").data :=
  ⟨rfl, rfl, rfl⟩

/-- Claim C5 (amended): for every token that passes the earlier checks,
a present `issuer` claim is compared by exact string match against the
hardcoded constant `LOKI_URL` (`http://localhost:9000`): a different
issuer rejects with the unexpected-issuer message, the constant itself
passes, and an absent issuer is not a rejection. -/
theorem c5_issuer (now : Nat) (token : List Char) {header : Header}
    {bytes : List Nat} {claims : Claims}
    (hd : decode_header token = .ok header)
    (hm : isHmac header.alg = false)
    (hc : decode_claims_bytes token = .ok bytes)
    (hpc : parse_claims bytes = .ok claims)
    (hexp : claims.exp = none ∨ ∃ e, claims.exp = some e ∧ ¬e < now) :
    (∀ s, claims.iss = some s → s ≠ LOKI_URL →
        validate_token now token = .error (unexpectedIssuerMsg s)) ∧
      (∀ s, claims.iss = some s → s = LOKI_URL →
        validate_token now token = .ok ()) ∧
      (claims.iss = none → validate_token now token = .ok ()) := by
  have hb1 := not_branch1_of_not_hmac header token hm
  have hv := validate_reduce_checks now token header bytes claims hd hb1 hm
    hc hpc
  have hci : validate_token now token = check_iss claims := by
    rcases hexp with he | ⟨e, he, hge⟩
    · rw [hv, check_exp_iss_none now claims he]
    · rw [hv, check_exp_iss_some_ge now claims e he hge]
  refine ⟨?_, ?_, ?_⟩
  · intro s hi hne
    rw [hci, check_iss_some_ne claims s hi hne]
  · intro s hi heq
    rw [hci, check_iss_some_eq claims s hi heq]
  · intro hi
    rw [hci, check_iss_none claims hi]

/-- Witness for C5 (amended): the trusted.example issuer is rejected at
a concrete token; the constant issuer is accepted. -/
theorem c5_witness :
    validate_token 988
        (("eyJhbGciOiJSUzI1NiJ9.eyJpc3MiOiJodHRwczovL3RydXN0ZWQuZXhhbXBsZSJ9.sg").data) =
        .error (unexpectedIssuerMsg (("https://trusted.example").data)) ∧
      validate_token 988
        (("eyJhbGciOiJSUzI1NiJ9.eyJpc3MiOiJodHRwOi8vbG9jYWxob3N0OjkwMDAifQ.sg").data) =
        .ok () :=
  ⟨(c5_issuer 988
      (("eyJhbGciOiJSUzI1NiJ9.eyJpc3MiOiJodHRwczovL3RydXN0ZWQuZXhhbXBsZSJ9.sg").data)
      rfl rfl rfl rfl (Or.inl rfl)).1 _ rfl (by decide),
    (c5_issuer 988
      (("eyJhbGciOiJSUzI1NiJ9.eyJpc3MiOiJodHRwOi8vbG9jYWxob3N0OjkwMDAifQ.sg").data)
      rfl rfl rfl rfl (Or.inl rfl)).2.1 _ rfl rfl⟩

/-- Claim C6: every well-formed token whose header algorithm is not in
the HMAC family (the algorithm cannot be `none`, which never decodes),
whose `expiration` is absent or not in the past, and whose `issuer` is
absent or equal to the expected issuer (the constant `LOKI_URL`), is
accepted. -/
theorem c6_accepted (now : Nat) (token : List Char) {header : Header}
    {bytes : List Nat} {claims : Claims}
    (hd : decode_header token = .ok header)
    (hm : isHmac header.alg = false)
    (hc : decode_claims_bytes token = .ok bytes)
    (hpc : parse_claims bytes = .ok claims)
    (hexp : claims.exp = none ∨ ∃ e, claims.exp = some e ∧ ¬e < now)
    (hiss : claims.iss = none ∨ claims.iss = some LOKI_URL) :
    validate_token now token = .ok () := by
  have hb1 := not_branch1_of_not_hmac header token hm
  have hv := validate_reduce_checks now token header bytes claims hd hb1 hm
    hc hpc
  have hci : validate_token now token = check_iss claims := by
    rcases hexp with he | ⟨e, he, hge⟩
    · rw [hv, check_exp_iss_none now claims he]
    · rw [hv, check_exp_iss_some_ge now claims e he hge]
  rcases hiss with hi | hi
  · rw [hci, check_iss_none claims hi]
  · rw [hci, check_iss_some_eq claims LOKI_URL hi rfl]

/-- Witness for C6: a plain RS256 token with no claims is accepted. -/
theorem c6_witness :
    validate_token 42 (("eyJhbGciOiJSUzI1NiJ9.e30.sig").data) = .ok () :=
  c6_accepted 42 (("eyJhbGciOiJSUzI1NiJ9.e30.sig").data)
    rfl rfl rfl rfl (Or.inl rfl) (Or.inl rfl)

/-- Claim C7 (counterexample): the claim says HEADER decoding tries the
standard alphabet first with URL-safe-no-pad as fallback, so a padded
standard-alphabet header should decode.  It does not: the header segment
`eyAiYWxnIjoiUlMyNTYifQ==` is valid standard base64 with padding
(decoding to a JSON object with `alg RS256`), yet the token is rejected
as a header-format (base64) error, because `decode_header` uses
URL-safe-no-pad only. -/
theorem c7_counterexample :
    b64DecodeStandardPad (("eyAiYWxnIjoiUlMyNTYifQ==").data) =
        some [123, 32, 34, 97, 108, 103, 34, 58, 34, 82, 83, 50, 53, 54,
          34, 125] ∧
      validate_token 321 (("eyAiYWxnIjoiUlMyNTYifQ==.e30.x").data) =
        .error (fmtInvalidTokenFormat JwtError.Base64Err) :=
  ⟨rfl, rfl⟩

/-- Claim C7 (amended): the standard-then-URL-safe-no-pad fallback is
applied to the PAYLOAD segment (segment index 1): a payload valid under
the standard padded alphabet decodes, and when the standard engine fails
a payload valid under URL-safe-no-pad decodes.  The header segment, by
contrast, is decoded with URL-safe-no-pad only, and when that fails the
token is rejected as a base64 header error. -/
theorem c7_payload_fallback :
    (∀ token bytes, ¬(splitOnDot token).length < 2 →
      b64DecodeStandardPad ((splitOnDot token).getD 1 []) = some bytes →
      decode_claims_bytes token = .ok bytes) ∧
      (∀ token bytes, ¬(splitOnDot token).length < 2 →
        b64DecodeStandardPad ((splitOnDot token).getD 1 []) = none →
        b64DecodeUrlSafeNoPad ((splitOnDot token).getD 1 []) = some bytes →
        decode_claims_bytes token = .ok bytes) ∧
      (∀ hseg pseg sig, '.' ∉ pseg → '.' ∉ sig →
        decode_header (hseg ++ '.' :: (pseg ++ '.' :: sig)) =
          headerFromEncoded hseg) ∧
      (∀ seg, b64DecodeUrlSafeNoPad seg = none →
        headerFromEncoded seg = .error JwtError.Base64Err) := by
  refine ⟨?_, ?_, ?_, ?_⟩
  · intro token bytes hlen hstd
    rw [decode_claims_bytes, if_neg hlen, decode_seg_b64, hstd]
  · intro token bytes hlen hstd hurl
    rw [decode_claims_bytes, if_neg hlen, decode_seg_b64, hstd, hurl]
  · intro hseg pseg sig hp hs
    exact decode_header_decomposed hseg pseg sig hp hs
  · intro seg h
    rw [headerFromEncoded, h]

/-- Witness for C7: the payload fallback evaluated both ways on concrete
tokens (`e30=` is standard-padded only, `e30` is URL-safe-no-pad only),
and the header path on concrete segments. -/
theorem c7_witness :
    decode_claims_bytes (("x.e30=.y").data) = .ok [123, 125] ∧
      decode_claims_bytes (("x.e30.y").data) = .ok [123, 125] ∧
      decode_header (("a").data ++ '.' :: (("b").data ++ '.' :: ("c").data)) =
        headerFromEncoded (("a").data) ∧
      headerFromEncoded (("e30=").data) = .error JwtError.Base64Err :=
  ⟨c7_payload_fallback.1 (("x.e30=.y").data) [123, 125] (by decide) rfl,
    c7_payload_fallback.2.1 (("x.e30.y").data) [123, 125] (by decide) rfl rfl,
    c7_payload_fallback.2.2.1 (("a").data) (("b").data) (("c").data)
      (by decide) (by decide),
    c7_payload_fallback.2.2.2 (("e30=").data) rfl⟩

/-- Claim C8: `validate_token` never inspects the bytes of a non-empty
signature segment: two tokens identical except for their (non-empty,
dot-free) final segment get the same verdict. -/
theorem c8_signature_ignored (now : Nat) (pfx s1 s2 : List Char)
    (h1 : s1 ≠ []) (h2 : s2 ≠ []) (h3 : '.' ∉ s1) (h4 : '.' ∉ s2) :
    validate_token now (pfx ++ '.' :: s1) =
      validate_token now (pfx ++ '.' :: s2) := by
  rw [validate_token_trailing now pfx s1 h1 h3,
    validate_token_trailing now pfx s2 h2 h4]

/-- Witness for C8: swapping one concrete signature for another changes
nothing about the verdict. -/
theorem c8_witness :
    validate_token 7 ((("eyJhbGciOiJSUzI1NiJ9.e30").data) ++ '.' ::
        (("AAAA").data)) =
      validate_token 7 ((("eyJhbGciOiJSUzI1NiJ9.e30").data) ++ '.' ::
        (("ZZZZ").data)) :=
  c8_signature_ignored 7 (("eyJhbGciOiJSUzI1NiJ9.e30").data)
    (("AAAA").data) (("ZZZZ").data) (by decide) (by decide) (by decide)
    (by decide)

/-- Claim C9 (counterexample): the code's verdict type is
`Result<(), String>`: a rejection IS its free-form message string, with
no typed `RejectKind` field — two different defenses yield rejections
that differ only in their string payload (the repository's own tests
tell them apart by substring matching). -/
theorem c9_counterexample :
    validate_token 555 (("eyJhbGciOiJSUzI1NiJ9.eyJleHAiOjF9.sig").data) =
        .error (("SECURITY: token is expired").data) ∧
      validate_token 555 (("eyJhbGciOiJIUzUxMiJ9.e30.sig").data) =
        .error
          (("SECURITY: symmetric algorithm HS512 not allowed - possible key confusion attack").data) :=
  ⟨rfl, rfl⟩

/-- Claim C9 (amended): every rejection message `validate_token` can
produce starts with a fixed prefix characteristic of the defense that
fired, so the caller can recover the spec's `RejectKind` taxonomy — but
only by examining the detail string (`classifyMsg`); no typed tag
exists. -/
theorem c9_classified :
    (∀ now token s, validate_token now token = .error s →
      ∃ k, classifyMsg s = some k) ∧
      (∀ e, classifyMsg (fmtInvalidTokenFormat e) =
        some RejectKind.Malformed) ∧
      classifyMsg invalidStructureMsg = some RejectKind.Malformed ∧
      classifyMsg invalidClaimsEncodingMsg = some RejectKind.Malformed ∧
      classifyMsg invalidClaimsJsonMsg = some RejectKind.Malformed ∧
      classifyMsg algNoneMsg = some RejectKind.UnsignedToken ∧
      (∀ a, classifyMsg (symmetricMsg a) =
        some RejectKind.SymmetricAlgorithm) ∧
      classifyMsg expiredMsg = some RejectKind.Expired ∧
      (∀ iss, classifyMsg (unexpectedIssuerMsg iss) =
        some RejectKind.UnexpectedIssuer) := by
  refine ⟨?_, classify_fmtMsg, by decide, by decide, by decide, by decide,
    classify_symmetricMsg, by decide, classify_issuerMsg⟩
  intro now token s h
  cases hd : decode_header token with
  | error e =>
    rw [validate_reduce_hdrErr now token e hd] at h
    injection h with h0
    exact ⟨RejectKind.Malformed, by rw [← h0]; exact classify_fmtMsg e⟩
  | ok header =>
    by_cases hb1 : header.alg = Algorithm.HS256 ∧ endsWithDot token = true
    · rw [validate_reduce_branch1 now token header hd hb1] at h
      injection h with h0
      exact ⟨RejectKind.UnsignedToken, by rw [← h0]; decide⟩
    · cases hm : isHmac header.alg with
      | true =>
        rw [validate_reduce_hmac now token header hd hb1 hm] at h
        injection h with h0
        exact ⟨RejectKind.SymmetricAlgorithm, by
          rw [← h0]; exact classify_symmetricMsg header.alg⟩
      | false =>
        rw [validate_reduce_claims now token header hd hb1 hm] at h
        cases hc : decode_claims_bytes token with
        | error m =>
          simp only [hc] at h
          injection h with h0
          rcases decode_claims_bytes_error token m hc with h1 | h1
          · exact ⟨RejectKind.Malformed, by rw [← h0, h1]; decide⟩
          · exact ⟨RejectKind.Malformed, by rw [← h0, h1]; decide⟩
        | ok bytes =>
          simp only [hc] at h
          cases hpc : parse_claims bytes with
          | error m =>
            simp only [hpc] at h
            injection h with h0
            have h1 := parse_claims_error bytes m hpc
            exact ⟨RejectKind.Malformed, by rw [← h0, h1]; decide⟩
          | ok claims =>
            simp only [hpc] at h
            rcases check_exp_iss_error now claims s h with h1 | ⟨iss, h1⟩
            · exact ⟨RejectKind.Expired, by rw [h1]; decide⟩
            · exact ⟨RejectKind.UnexpectedIssuer, by
                rw [h1]; exact classify_issuerMsg iss⟩

/-- Witness for C9: the expired rejection of a concrete token is
classifiable. -/
theorem c9_witness :
    ∃ k, classifyMsg (("SECURITY: token is expired").data) = some k :=
  c9_classified.1 556 (("eyJhbGciOiJSUzI1NiJ9.eyJleHAiOjF9.sg").data) _ rfl

/-- Claim C10: a header whose `alg` string is outside the recognized
algorithm set — in particular `none` in any casing, whose lower-casing
equal to `none` forces it outside the set — fails header decoding
itself, so `validate_token` returns the header-format rejection; and the
dedicated lower-cased comparison against `none` after header decoding is
dead code: removing it (`validate_token_sans_lower_none`) changes the
verdict of no input. -/
theorem c10_unrecognized_alg :
    (∀ now hseg pseg sig bytes fields s, '.' ∉ pseg → '.' ∉ sig →
      b64DecodeUrlSafeNoPad hseg = some bytes →
      parseJsonTop bytes = some (Json.jobj fields) →
      getField fields (("alg").data) = some (some (Json.jstr s)) →
      algFromName s = none →
      validate_token now (hseg ++ '.' :: (pseg ++ '.' :: sig)) =
        .error (fmtInvalidTokenFormat JwtError.JsonErr)) ∧
      (∀ s, toLowerList s = ("none").data → algFromName s = none) ∧
      (∀ now token,
        validate_token now token = validate_token_sans_lower_none now token) := by
  refine ⟨?_, algFromName_of_lower_none, ?_⟩
  · intro now hseg pseg sig bytes fields s hp hs hb64 hj hg halg
    have hfj : headerFromJson (Json.jobj fields) = none := by
      rw [headerFromJson, hg]
      simp only [Option.bind]
      rw [halg]
    have hfe : headerFromEncoded hseg = .error .JsonErr := by
      rw [headerFromEncoded, hb64]
      simp only [hj, hfj]
    have hd : decode_header (hseg ++ '.' :: (pseg ++ '.' :: sig)) =
        .error .JsonErr := by
      rw [decode_header_decomposed hseg pseg sig hp hs]
      exact hfe
    exact validate_reduce_hdrErr now _ _ hd
  · intro now token
    cases hd : decode_header token with
    | error e =>
      rw [validate_reduce_hdrErr now token e hd, validate_token_sans_lower_none,
        hd]
    | ok header =>
      rw [validate_token, validate_token_sans_lower_none]
      simp only [hd]
      by_cases hb1 : header.alg = Algorithm.HS256 ∧ endsWithDot token = true
      · rw [if_pos hb1, if_pos hb1]
      · rw [if_neg hb1, if_neg hb1,
          if_neg (lower_algName_ne_none header.alg)]

/-- Witness for C10: the `alg none` token is rejected as a header-format
error, the name `NoNe` is outside the recognized set, and on a concrete
token the branch-free validator agrees with the original. -/
theorem c10_witness :
    validate_token 9 ((("eyJhbGciOiJub25lIn0").data) ++ '.' ::
        ((("e30").data) ++ '.' :: (("x").data))) =
        .error (fmtInvalidTokenFormat JwtError.JsonErr) ∧
      algFromName (("NoNe").data) = none ∧
      validate_token 9 (("eyJhbGciOiJIUzI1NiJ9.e30.s").data) =
        validate_token_sans_lower_none 9
          (("eyJhbGciOiJIUzI1NiJ9.e30.s").data) :=
  ⟨c10_unrecognized_alg.1 9 (("eyJhbGciOiJub25lIn0").data) (("e30").data)
      (("x").data)
      [123, 34, 97, 108, 103, 34, 58, 34, 110, 111, 110, 101, 34, 125]
      [((("alg").data), Json.jstr (("none").data))] (("none").data)
      (by decide) (by decide) rfl rfl rfl rfl,
    c10_unrecognized_alg.2.1 (("NoNe").data) (by decide),
    c10_unrecognized_alg.2.2 9 (("eyJhbGciOiJIUzI1NiJ9.e30.s").data)⟩

end OidcLoki
